import Mathlib

/-
Verification of the instrumented Cedar authorization pipeline
(src/main.rs of this repository).

The pipeline itself — `authorize_with_timing` and `main` — is embedded
shallowly below, line by line from the source.  The external library
capabilities it calls (`cedar_policy`'s `EntityUid::from_str`,
`Context::from_json_value`, `Request::new`, `PolicySet::from_str`,
`Entities::from_json_str`, `Authorizer::is_authorized`, and
`serde_json::from_str`) are not part of this repository's sources, so the
embedding is parameterised over them through the `Env` structure; the
decision capability's semantic contract, which the spec fixes in §4.6, is
additionally modelled explicitly (`evaluate`) where a claim depends on it.

Time is modelled by a clock function `clock : Nat → Nat` giving, in
nanoseconds, the reading returned by the i-th `Instant::now()` observation
the pipeline performs (a Rust `start.elapsed()` call reads the clock again,
so it also consumes an observation); `Duration::as_micros` truncates, which
the embedding renders as division by 1000 on naturals.  Rust's `Instant`
is monotonic, which becomes the `Monotone clock` hypothesis.
-/

namespace CedarAuthorize

/-- An authorization decision (`cedar_policy::Decision`): Allow or Deny. -/
inductive Decision where
  | allow
  | deny
deriving DecidableEq

/-- The text Rust's Debug formatting prints for a `Decision`, as used by
both output modes of `main`. -/
def Decision.debugRepr : Decision → String
  | .allow => "Allow"
  | .deny => "Deny"

/-- The part of `cedar_policy::Response` that the program consumes: the
decision returned by `response.decision()`. -/
structure Response where
  decision : Decision
deriving DecidableEq

/-- The stage at which a run can abort; each constructor corresponds to one
`.expect` call in `authorize_with_timing` (src/main.rs lines 63-88). -/
inductive Stage where
  | principal
  | action
  | resource
  | contextJson
  | contextBuild
  | requestBuild
  | policy
  | entities
deriving DecidableEq

/-- The literal `.expect` message guarding each stage in the source. -/
def expectLabel : Stage → String
  | .principal => "failed to parse principal"
  | .action => "failed to parse action"
  | .resource => "failed to parse resource"
  | .contextJson => "failed to parse context JSON"
  | .contextBuild => "failed to create context"
  | .requestBuild => "failed to create request"
  | .policy => "failed to parse policies"
  | .entities => "failed to parse entities"

/-- A panicking `.expect`: the stage it guards plus the underlying library
error rendered as text. -/
structure Failure where
  stage : Stage
  message : String
deriving DecidableEq

/-- The diagnostic text a failing `.expect` directs to the error channel
(the process aborts; nothing is written to standard output). -/
def Failure.render (f : Failure) : String :=
  expectLabel f.stage ++ ": " ++ f.message

/-- The external library capabilities the pipeline calls.  The carrier
types `U J C R E P` (entity uid, JSON value, context, request, entity
store, policy set) are opaque to the pipeline, which only threads the
values between the capabilities exactly as the source does. -/
structure Env (U J C R E P : Type) where
  parseEntityUid : String → Except String U
  parseJson : String → Except String J
  contextFromJson : J → Except String C
  requestNew : U → U → U → C → Except String R
  parsePolicySet : String → Except String P
  entitiesFromJson : String → Except String E
  isAuthorized : R → P → E → Response

/-- One pipeline stage being entered, for tracing execution order. -/
inductive Event where
  | parsePrincipal
  | parseAction
  | parseResource
  | parseContext
  | buildRequest
  | parsePolicy
  | parseEntities
  | authorize
deriving DecidableEq

/-- The full stage trace of a run that reaches the success path. -/
def successTrace : List Event :=
  [.parsePrincipal, .parseAction, .parseResource, .parseContext,
   .buildRequest, .parsePolicy, .parseEntities, .authorize]

/-- The `TimingOutput` struct (src/main.rs lines 40-49); field order is the
declaration order, which is also the order `serde_json` serialises.  The
`u128` microsecond counts become naturals. -/
structure TimingOutput where
  decision : String
  parse_policy_us : Nat
  parse_context_us : Nat
  parse_entities_us : Nat
  build_request_us : Nat
  authorization_us : Nat
  total_us : Nat
deriving DecidableEq

variable {U J C R E P : Type}

/-- Lines 70-72 of the source: parse the context text as JSON, then build
a `Context` value from the JSON; either step aborts the run with its own
`.expect` message, both within the timed context stage. -/
def buildContext (env : Env U J C R E P) (context_str : String) :
    Except Failure C :=
  match env.parseJson context_str with
  | .error e => .error ⟨.contextJson, e⟩
  | .ok context_json =>
    match env.contextFromJson context_json with
    | .error e => .error ⟨.contextBuild, e⟩
    | .ok c => .ok c

/-- Shallow embedding of `authorize_with_timing` (src/main.rs lines
52-110).  `clock i` is the i-th `Instant::now()` reading in nanoseconds:
reading 0 is `total_start`, 1/2 delimit the context stage, 3/4 the
request build, 5/6 the policy parse, 7/8 the entities parse, 9/10 the
authorization call, and 11 is the final `total_start.elapsed()`.  The
result is the Rust function's outcome — `Response` and `TimingOutput` on
the success path, the failure of the panicking `.expect` otherwise —
paired with the trace of stages entered, in execution order. -/
def authorize_with_timing (env : Env U J C R E P) (clock : Nat → Nat)
    (principal action resource policies entities : String)
    (context : Option String) :
    Except Failure (Response × TimingOutput) × List Event :=
  match env.parseEntityUid principal with
  | .error e => (.error ⟨.principal, e⟩, [.parsePrincipal])
  | .ok principalUid =>
    match env.parseEntityUid action with
    | .error e => (.error ⟨.action, e⟩, [.parsePrincipal, .parseAction])
    | .ok actionUid =>
      match env.parseEntityUid resource with
      | .error e =>
        (.error ⟨.resource, e⟩, [.parsePrincipal, .parseAction, .parseResource])
      | .ok resourceUid =>
        let context_str := context.getD "\x7b\x7d"
        match buildContext env context_str with
        | .error f =>
          (.error f,
           [.parsePrincipal, .parseAction, .parseResource, .parseContext])
        | .ok contextVal =>
          let parse_context_us := (clock 2 - clock 1) / 1000
          match env.requestNew principalUid actionUid resourceUid contextVal with
          | .error e =>
            (.error ⟨.requestBuild, e⟩,
             [.parsePrincipal, .parseAction, .parseResource, .parseContext,
              .buildRequest])
          | .ok request =>
            let build_request_us := (clock 4 - clock 3) / 1000
            match env.parsePolicySet policies with
            | .error e =>
              (.error ⟨.policy, e⟩,
               [.parsePrincipal, .parseAction, .parseResource, .parseContext,
                .buildRequest, .parsePolicy])
            | .ok policy_set =>
              let parse_policy_us := (clock 6 - clock 5) / 1000
              match env.entitiesFromJson entities with
              | .error e =>
                (.error ⟨.entities, e⟩,
                 [.parsePrincipal, .parseAction, .parseResource, .parseContext,
                  .buildRequest, .parsePolicy, .parseEntities])
              | .ok entityStore =>
                let parse_entities_us := (clock 8 - clock 7) / 1000
                let response := env.isAuthorized request policy_set entityStore
                let authorization_us := (clock 10 - clock 9) / 1000
                let total_us := (clock 11 - clock 0) / 1000
                (.ok (response,
                  { decision := response.decision.debugRepr
                    parse_policy_us := parse_policy_us
                    parse_context_us := parse_context_us
                    parse_entities_us := parse_entities_us
                    build_request_us := build_request_us
                    authorization_us := authorization_us
                    total_us := total_us }),
                 successTrace)

/-- Default principal (src/main.rs line 115). -/
def principalDefault : String := "User::\"alice\""

/-- Default action (line 116). -/
def actionDefault : String := "Action::\"update\""

/-- Default resource (line 117). -/
def resourceDefault : String := "Photo::\"flower.jpg\""

/-- Default policy text, the raw string of lines 118-127. -/
def policyDefault : String :=
  "permit(\n            principal in User::\"alice\",\n            action in [Action::\"update\", Action::\"delete\"],\n            resource == Photo::\"flower.jpg\")\n        when \x7b\n            context.mfa_authenticated == true &&\n            context.request_client_ip == \"222.222.222.222\"\n        \x7d;"

/-- The built-in example context (line 129). -/
def contextDefault : String :=
  "\x7b\"mfa_authenticated\": true, \"request_client_ip\": \"222.222.222.222\", \"oidc_scope\": \"profile\"\x7d"

/-- The command-line arguments as `main` receives them from the argument
parser.  Only `entities` has a parser-level default value (`"[]"`), so it
arrives as a plain string; the remaining optional flags arrive as options
and are defaulted inside `main` itself. -/
structure Args where
  principal : Option String
  action : Option String
  resource : Option String
  policy : Option String
  entities : String
  context : Option String
  timing : Bool
deriving DecidableEq

/-- Line 130: `args.context.as_deref().or(Some(context_default))` — the
context option handed to the pipeline is the caller's context when
present and otherwise the built-in example; it is never `none`. -/
def contextArg (args : Args) : Option String :=
  match args.context with
  | some s => some s
  | none => some contextDefault

/-- The pipeline call `main` performs (line 132), with the defaults of
lines 115-130 applied.  Note that the timing flag is not an input here:
`main` reads it only afterwards, to choose the rendering. -/
def runPipeline (env : Env U J C R E P) (clock : Nat → Nat) (args : Args) :
    Except Failure (Response × TimingOutput) × List Event :=
  authorize_with_timing env clock
    (args.principal.getD principalDefault)
    (args.action.getD actionDefault)
    (args.resource.getD resourceDefault)
    (args.policy.getD policyDefault)
    args.entities
    (contextArg args)

/-- `serde_json::to_string` of a `TimingOutput`: one JSON object whose
fields appear in struct declaration order.  The decision strings produced
by the program ("Allow"/"Deny") need no JSON escaping. -/
def timingJson (t : TimingOutput) : String :=
  "\x7b\"decision\":\"" ++ t.decision ++
  "\",\"parse_policy_us\":" ++ toString t.parse_policy_us ++
  ",\"parse_context_us\":" ++ toString t.parse_context_us ++
  ",\"parse_entities_us\":" ++ toString t.parse_entities_us ++
  ",\"build_request_us\":" ++ toString t.build_request_us ++
  ",\"authorization_us\":" ++ toString t.authorization_us ++
  ",\"total_us\":" ++ toString t.total_us ++ "\x7d"

/-- Shallow embedding of `main` (src/main.rs lines 112-139).  Returns the
lines written to standard output and to the error channel, in order: on
success exactly one stdout line (the timing JSON or the bare decision
depending on the flag), on a panicking `.expect` no stdout line and the
diagnostic on the error channel. -/
def mainRun (env : Env U J C R E P) (clock : Nat → Nat) (args : Args) :
    List String × List String :=
  match runPipeline env clock args with
  | (.error f, _) => ([], [f.render])
  | (.ok (response, timing), _) =>
    if args.timing then ([timingJson timing], [])
    else ([response.decision.debugRepr], [])

/-- A policy's effect: permit or forbid. -/
inductive Effect where
  | permit
  | forbid
deriving DecidableEq, BEq

/-- Modelled from the spec: a policy as the decision capability of §4.6
sees it — an effect together with the predicate "this policy's scope and
guard match the request against the entity store".  `cedar_policy`'s
policy representation is external library code, not in this repository. -/
structure PolicyM (Req Ent : Type) where
  effect : Effect
  applies : Req → Ent → Bool

/-- Modelled from the spec: the authorization-decision capability of §4.6
(`Authorizer::is_authorized` is external library code).  Default-deny: if
no policy matches, Deny; explicit-forbid-overrides-permit: any matching
forbid yields Deny; otherwise a matching permit yields Allow. -/
def evaluate {Req Ent : Type} (ps : List (PolicyM Req Ent)) (req : Req)
    (es : Ent) : Decision :=
  if ps.any (fun p => p.effect == .forbid && p.applies req es) then .deny
  else if ps.any (fun p => p.effect == .permit && p.applies req es) then .allow
  else .deny

/-- Modelled from the spec: an environment whose policy-set loader (§4.3,
scenario C: the empty source text parses to the empty policy set; other
inputs behave as the given `pp`) and decision capability (§4.6,
`evaluate`) follow the spec's contract for the external collaborators,
while all other capabilities stay abstract. -/
def specEnv (pu : String → Except String U) (pj : String → Except String J)
    (cf : J → Except String C) (rn : U → U → U → C → Except String R)
    (pe : String → Except String E)
    (pp : String → Except String (List (PolicyM R E))) :
    Env U J C R E (List (PolicyM R E)) :=
  { parseEntityUid := pu
    parseJson := pj
    contextFromJson := cf
    requestNew := rn
    parsePolicySet := fun s => if s = "" then .ok [] else pp s
    entitiesFromJson := pe
    isAuthorized := fun req ps es => ⟨evaluate ps req es⟩ }

/-- A fully concrete environment over unit carriers in which every
capability succeeds and the decision is Deny; used to exercise theorems on
concrete runs. -/
def unitEnv : Env Unit Unit Unit Unit Unit Unit :=
  { parseEntityUid := fun _ => .ok ()
    parseJson := fun _ => .ok ()
    contextFromJson := fun _ => .ok ()
    requestNew := fun _ _ _ _ => .ok ()
    parsePolicySet := fun _ => .ok ()
    entitiesFromJson := fun _ => .ok ()
    isAuthorized := fun _ _ _ => ⟨.deny⟩ }

/-- Like `unitEnv` but the JSON parse of the context text always fails. -/
def failJsonEnv : Env Unit Unit Unit Unit Unit Unit :=
  { unitEnv with parseJson := fun _ => .error "expected value" }

/-- Like `unitEnv` but the JSON value parser echoes its input and the
context builder rejects it: the resulting failure message exposes exactly
the text the context stage received. -/
def probeEnv : Env Unit String Unit Unit Unit Unit :=
  { parseEntityUid := fun _ => .ok ()
    parseJson := fun s => .ok s
    contextFromJson := fun s => .error s
    requestNew := fun _ _ _ _ => .ok ()
    parsePolicySet := fun _ => .ok ()
    entitiesFromJson := fun _ => .ok ()
    isAuthorized := fun _ _ _ => ⟨.deny⟩ }

/-- A concrete monotone clock: the i-th reading is i microseconds. -/
def testClock : Nat → Nat := fun i => 1000 * i

/-- A concrete argument record with every flag absent and timing off. -/
def defaultArgs : Args :=
  { principal := none, action := none, resource := none, policy := none
    entities := "[]", context := none, timing := false }

/-- Like `unitEnv` but identifier parsing always fails. -/
def failUidEnv : Env Unit Unit Unit Unit Unit Unit :=
  { unitEnv with parseEntityUid := fun _ => .error "invalid token" }

/-- The timing record produced by a successful run under `testClock`:
every stage lasts one microsecond and the whole run eleven. -/
def unitTiming : TimingOutput :=
  { decision := "Deny", parse_policy_us := 1, parse_context_us := 1
    parse_entities_us := 1, build_request_us := 1, authorization_us := 1
    total_us := 11 }

/-- The test clock is monotone. -/
theorem testClock_monotone : Monotone testClock := by
  intro i j hij
  exact Nat.mul_le_mul_left 1000 hij

/-- A context-stage failure carries one of the two context stages. -/
theorem buildContext_error_stage {env : Env U J C R E P} {s : String}
    {f : Failure} (h : buildContext env s = .error f) :
    f.stage = .contextJson ∨ f.stage = .contextBuild := by
  unfold buildContext at h
  repeat' split at h
  all_goals simp_all
  · left; rw [← h]
  · right; rw [← h]

/-- Inversion of a successful pipeline run: the timing record's fields
are exactly the clock differences the source computes, the decision text
is the Debug rendering of the response's decision, and the trace is the
full stage sequence. -/
theorem authorize_ok_inversion {env : Env U J C R E P} {clock : Nat → Nat}
    {p a r pol ent : String} {ctx : Option String} {resp : Response}
    {t : TimingOutput} {tr : List Event}
    (h : authorize_with_timing env clock p a r pol ent ctx = (.ok (resp, t), tr)) :
    t.decision = resp.decision.debugRepr ∧
    t.parse_context_us = (clock 2 - clock 1) / 1000 ∧
    t.build_request_us = (clock 4 - clock 3) / 1000 ∧
    t.parse_policy_us = (clock 6 - clock 5) / 1000 ∧
    t.parse_entities_us = (clock 8 - clock 7) / 1000 ∧
    t.authorization_us = (clock 10 - clock 9) / 1000 ∧
    t.total_us = (clock 11 - clock 0) / 1000 ∧
    tr = successTrace := by
  unfold authorize_with_timing at h
  rcases hP : env.parseEntityUid p with e | pu
  · simp [hP] at h
  rcases hA : env.parseEntityUid a with e | au
  · simp [hP, hA] at h
  rcases hR : env.parseEntityUid r with e | ru
  · simp [hP, hA, hR] at h
  rcases hC : buildContext env (ctx.getD "\x7b\x7d") with f | c
  · simp [hP, hA, hR, hC] at h
  rcases hQ : env.requestNew pu au ru c with e | req
  · simp [hP, hA, hR, hC, hQ] at h
  rcases hPol : env.parsePolicySet pol with e | ps
  · simp [hP, hA, hR, hC, hQ, hPol] at h
  rcases hE : env.entitiesFromJson ent with e | es
  · simp [hP, hA, hR, hC, hQ, hPol, hE] at h
  simp only [hP, hA, hR, hC, hQ, hPol, hE] at h
  have h3 : successTrace = tr := congrArg Prod.snd h
  have hp : (({ decision := (env.isAuthorized req ps es).decision.debugRepr
                parse_policy_us := (clock 6 - clock 5) / 1000
                parse_context_us := (clock 2 - clock 1) / 1000
                parse_entities_us := (clock 8 - clock 7) / 1000
                build_request_us := (clock 4 - clock 3) / 1000
                authorization_us := (clock 10 - clock 9) / 1000
                total_us := (clock 11 - clock 0) / 1000 } : TimingOutput)) = t :=
    congrArg Prod.snd (Except.ok.inj (congrArg Prod.fst h))
  have hresp : env.isAuthorized req ps es = resp :=
    congrArg Prod.fst (Except.ok.inj (congrArg Prod.fst h))
  subst hp
  exact ⟨by rw [hresp], rfl, rfl, rfl, rfl, rfl, rfl, h3.symm⟩

/-- The error channel of `mainRun` is determined by the pipeline result. -/
theorem mainRun_stderr (env : Env U J C R E P) (clock : Nat → Nat)
    (args : Args) :
    (mainRun env clock args).2 =
      (match (runPipeline env clock args).1 with
       | .error f => [f.render]
       | .ok _ => []) := by
  unfold mainRun
  rcases hr : runPipeline env clock args with ⟨res, tr⟩
  rcases res with f | ⟨resp, t⟩
  · simp
  · rcases hb : args.timing <;> simp [hb]

/-- C1: for every run reaching the success path (with the monotone clock
of `Instant::now`), the recorded total duration satisfies
`total_us ≥ authorization_us` and `total_us ≥ parse_policy_us +
parse_context_us + parse_entities_us + build_request_us +
authorization_us`, all taken as the truncated-microsecond integers the
pipeline records. -/
theorem total_us_bounds_stage_durations {env : Env U J C R E P}
    {clock : Nat → Nat} (hmono : Monotone clock)
    {p a r pol ent : String} {ctx : Option String}
    {resp : Response} {t : TimingOutput} {tr : List Event}
    (h : authorize_with_timing env clock p a r pol ent ctx = (.ok (resp, t), tr)) :
    t.authorization_us ≤ t.total_us ∧
    t.parse_policy_us + t.parse_context_us + t.parse_entities_us +
      t.build_request_us + t.authorization_us ≤ t.total_us := by
  obtain ⟨-, hc, hb, hp, he, ha, ht, -⟩ := authorize_ok_inversion h
  have h01 : clock 0 ≤ clock 1 := hmono (by norm_num)
  have h12 : clock 1 ≤ clock 2 := hmono (by norm_num)
  have h23 : clock 2 ≤ clock 3 := hmono (by norm_num)
  have h34 : clock 3 ≤ clock 4 := hmono (by norm_num)
  have h45 : clock 4 ≤ clock 5 := hmono (by norm_num)
  have h56 : clock 5 ≤ clock 6 := hmono (by norm_num)
  have h67 : clock 6 ≤ clock 7 := hmono (by norm_num)
  have h78 : clock 7 ≤ clock 8 := hmono (by norm_num)
  have h89 : clock 8 ≤ clock 9 := hmono (by norm_num)
  have h910 : clock 9 ≤ clock 10 := hmono (by norm_num)
  have h1011 : clock 10 ≤ clock 11 := hmono (by norm_num)
  rw [hc, hb, hp, he, ha, ht]
  omega

/-- Witness for C1 at the concrete unit environment and test clock. -/
theorem total_us_bounds_stage_durations_witness :
    unitTiming.authorization_us ≤ unitTiming.total_us ∧
    unitTiming.parse_policy_us + unitTiming.parse_context_us +
      unitTiming.parse_entities_us + unitTiming.build_request_us +
      unitTiming.authorization_us ≤ unitTiming.total_us :=
  total_us_bounds_stage_durations testClock_monotone
    (show authorize_with_timing unitEnv testClock "User::\"alice\""
        "Action::\"update\"" "Photo::\"flower.jpg\"" "" "[]" none =
      (.ok (⟨.deny⟩, unitTiming), successTrace) from rfl)

/-- C2: the timing flag is a pure side channel — the pipeline invocation
performed by `main` (its decision or error, and its stage trace) is
identical whichever value the flag has, and so is the error channel; the
flag only selects which success rendering is printed. -/
theorem timing_flag_is_pure_side_channel (env : Env U J C R E P)
    (clock : Nat → Nat) (args : Args) (b₁ b₂ : Bool) :
    runPipeline env clock { args with timing := b₁ } =
      runPipeline env clock { args with timing := b₂ } ∧
    (mainRun env clock { args with timing := b₁ }).2 =
      (mainRun env clock { args with timing := b₂ }).2 := by
  refine ⟨rfl, ?_⟩
  rw [mainRun_stderr, mainRun_stderr]
  rfl

/-- C3: the instrumented stages execute, and are timed, in the fixed
order context, request build, policy, entities, authorization: every
run's trace is an initial segment of `successTrace`, a successful run's
trace is exactly `successTrace`, and the decision capability occurs once
in it — no stage is retried or re-entered. -/
theorem pipeline_stage_order (env : Env U J C R E P) (clock : Nat → Nat)
    (p a r pol ent : String) (ctx : Option String) :
    ((authorize_with_timing env clock p a r pol ent ctx).2.isPrefixOf
      successTrace = true) ∧
    successTrace.count Event.authorize = 1 ∧
    (∀ resp t, (authorize_with_timing env clock p a r pol ent ctx).1 = .ok (resp, t) →
      (authorize_with_timing env clock p a r pol ent ctx).2 = successTrace) := by
  refine ⟨?_, by decide, ?_⟩
  · unfold authorize_with_timing
    rcases hP : env.parseEntityUid p with e | pu
    · simp only [hP]; decide
    rcases hA : env.parseEntityUid a with e | au
    · simp only [hP, hA]; decide
    rcases hR : env.parseEntityUid r with e | ru
    · simp only [hP, hA, hR]; decide
    rcases hC : buildContext env (ctx.getD "\x7b\x7d") with f | c
    · simp only [hP, hA, hR, hC]; decide
    rcases hQ : env.requestNew pu au ru c with e | req
    · simp only [hP, hA, hR, hC, hQ]; decide
    rcases hPol : env.parsePolicySet pol with e | ps
    · simp only [hP, hA, hR, hC, hQ, hPol]; decide
    rcases hE : env.entitiesFromJson ent with e | es
    · simp only [hP, hA, hR, hC, hQ, hPol, hE]; decide
    simp only [hP, hA, hR, hC, hQ, hPol, hE]; decide
  · intro resp t h
    exact (authorize_ok_inversion
      (show authorize_with_timing env clock p a r pol ent ctx =
        (.ok (resp, t), (authorize_with_timing env clock p a r pol ent ctx).2) by
          rw [← h])).2.2.2.2.2.2.2

/-- Witness for C3's success clause at the unit environment. -/
theorem pipeline_stage_order_witness :
    (authorize_with_timing unitEnv testClock "User::\"alice\""
      "Action::\"update\"" "Photo::\"flower.jpg\"" "" "[]" none).2 =
      successTrace :=
  (pipeline_stage_order unitEnv testClock "User::\"alice\""
    "Action::\"update\"" "Photo::\"flower.jpg\"" "" "[]" none).2.2
    ⟨.deny⟩ unitTiming rfl

/-- C4 counterexample: in a CLI run with no context flag supplied, the
text the Context Builder receives — exposed here by an environment whose
context builder echoes its input into the failure message — is the
built-in example context, which is not the empty object "\x7b\x7d", so
the context passed onward is not empty. -/
theorem context_default_counterexample :
    (runPipeline probeEnv testClock defaultArgs).1 =
      .error ⟨.contextBuild, contextDefault⟩ ∧
    contextDefault ≠ "\x7b\x7d" := by
  exact ⟨rfl, by decide⟩

/-- C4 (amended): the pipeline function itself defaults an absent context
to the empty-object text "\x7b\x7d" — calling it with no context behaves
exactly as calling it with "\x7b\x7d" — but `main` always supplies a
context to the pipeline: the caller's when the flag is present, otherwise
the built-in example `contextDefault`; hence a CLI run without a context
flag uses the built-in example, not the empty object. -/
theorem context_default_only_in_pipeline (env : Env U J C R E P)
    (clock : Nat → Nat) (p a r pol ent : String) :
    (∀ args : Args, contextArg args = some (args.context.getD contextDefault)) ∧
    authorize_with_timing env clock p a r pol ent none =
      authorize_with_timing env clock p a r pol ent (some "\x7b\x7d") := by
  refine ⟨?_, rfl⟩
  intro args
  cases h : args.context <;> simp [contextArg, h]

/-- C5: a context input rejected by the context stage (malformed JSON or
a non-object top level) makes the run fail at that stage: the pipeline
stops at the context parse with the context-stage failure, `main` writes
nothing to standard output — no decision, no timing — and sends the
diagnostic to the error channel. -/
theorem malformed_context_aborts_run {env : Env U J C R E P}
    {clock : Nat → Nat} {p a r : String} {ctx : String} {pu au ru : U}
    {f : Failure}
    (hp : env.parseEntityUid p = .ok pu) (ha : env.parseEntityUid a = .ok au)
    (hr : env.parseEntityUid r = .ok ru)
    (hc : buildContext env ctx = .error f) :
    (∀ pol ent tflag,
      mainRun env clock
        { principal := some p, action := some a, resource := some r,
          policy := some pol, entities := ent, context := some ctx,
          timing := tflag } = ([], [f.render])) ∧
    (∀ pol ent, authorize_with_timing env clock p a r pol ent (some ctx) =
      (.error f, [.parsePrincipal, .parseAction, .parseResource, .parseContext])) ∧
    (f.stage = .contextJson ∨ f.stage = .contextBuild) := by
  have hpipe : ∀ pol ent, authorize_with_timing env clock p a r pol ent (some ctx) =
      (.error f, [.parsePrincipal, .parseAction, .parseResource, .parseContext]) := by
    intro pol ent
    unfold authorize_with_timing
    simp only [hp, ha, hr, Option.getD_some, hc]
  refine ⟨?_, hpipe, buildContext_error_stage hc⟩
  intro pol ent tflag
  unfold mainRun runPipeline
  simp only [Option.getD_some, contextArg, hpipe pol ent]

/-- Witness for C5: a context text the JSON parser rejects aborts the run
with the context-stage diagnostic on the error channel only. -/
theorem malformed_context_aborts_run_witness :
    mainRun failJsonEnv testClock
      { principal := some "User::\"alice\"", action := some "Action::\"update\"",
        resource := some "Photo::\"flower.jpg\"", policy := some "",
        entities := "[]", context := some "\x7bnot json", timing := false } =
      ([], ["failed to parse context JSON: expected value"]) :=
  (@malformed_context_aborts_run Unit Unit Unit Unit Unit Unit failJsonEnv
    testClock "User::\"alice\"" "Action::\"update\"" "Photo::\"flower.jpg\""
    "\x7bnot json" () () () ⟨.contextJson, "expected value"⟩
    rfl rfl rfl rfl).1 "" "[]" false

/-- C6: a successful run writes exactly one line to standard output and
nothing to the error channel: in timing mode the JSON object with exactly
the fields decision, parse_policy_us, parse_context_us, parse_entities_us,
build_request_us, authorization_us, total_us (in that order), otherwise
the bare decision name. -/
theorem success_path_single_output_line {env : Env U J C R E P}
    {clock : Nat → Nat} {args : Args} {resp : Response} {t : TimingOutput}
    {tr : List Event}
    (h : runPipeline env clock args = (.ok (resp, t), tr)) :
    mainRun env clock args =
      (if args.timing then [timingJson t] else [resp.decision.debugRepr], []) ∧
    (mainRun env clock args).1.length = 1 ∧
    (mainRun env clock args).2 = [] := by
  have hm : mainRun env clock args =
      (if args.timing then [timingJson t] else [resp.decision.debugRepr], []) := by
    unfold mainRun
    rw [h]
    cases hb : args.timing <;> simp [hb]
  refine ⟨hm, ?_, ?_⟩
  · rw [hm]; cases args.timing <;> simp
  · rw [hm]

/-- Witness for C6 at the unit environment (decision-only mode). -/
theorem success_path_single_output_line_witness :
    mainRun unitEnv testClock defaultArgs = (["Deny"], []) ∧
    (mainRun unitEnv testClock defaultArgs).1.length = 1 ∧
    (mainRun unitEnv testClock defaultArgs).2 = [] :=
  success_path_single_output_line
    (show runPipeline unitEnv testClock defaultArgs =
      (.ok (⟨.deny⟩, unitTiming), successTrace) from rfl)

/-- C7: the pipeline is deterministic — two runs with the same inputs and
capabilities but arbitrary (possibly different) clocks take the same
stage path, produce the same response on success and the same failure on
error; only the numeric duration values of the timing record may differ,
its field set being the fixed `TimingOutput` shape. -/
theorem pipeline_deterministic_up_to_clock (env : Env U J C R E P)
    (clock₁ clock₂ : Nat → Nat) (args : Args) :
    (runPipeline env clock₁ args).2 = (runPipeline env clock₂ args).2 ∧
    (∀ resp t, (runPipeline env clock₁ args).1 = .ok (resp, t) →
      ∃ t', (runPipeline env clock₂ args).1 = .ok (resp, t')) ∧
    (∀ f, (runPipeline env clock₁ args).1 = .error f →
      (runPipeline env clock₂ args).1 = .error f) := by
  unfold runPipeline authorize_with_timing
  rcases hP : env.parseEntityUid (args.principal.getD principalDefault) with e | pu
  · simp [hP]
  rcases hA : env.parseEntityUid (args.action.getD actionDefault) with e | au
  · simp [hP, hA]
  rcases hR : env.parseEntityUid (args.resource.getD resourceDefault) with e | ru
  · simp [hP, hA, hR]
  rcases hC : buildContext env ((contextArg args).getD "\x7b\x7d") with f | c
  · simp [hP, hA, hR, hC]
  rcases hQ : env.requestNew pu au ru c with e | req
  · simp [hP, hA, hR, hC, hQ]
  rcases hPol : env.parsePolicySet (args.policy.getD policyDefault) with e | ps
  · simp [hP, hA, hR, hC, hQ, hPol]
  rcases hE : env.entitiesFromJson args.entities with e | es
  · simp [hP, hA, hR, hC, hQ, hPol, hE]
  simp only [hP, hA, hR, hC, hQ, hPol, hE]
  refine ⟨trivial, ?_, by simp⟩
  intro resp t h
  have hresp : env.isAuthorized req ps es = resp :=
    congrArg Prod.fst (Except.ok.inj h)
  refine ⟨{ decision := (env.isAuthorized req ps es).decision.debugRepr
            parse_policy_us := (clock₂ 6 - clock₂ 5) / 1000
            parse_context_us := (clock₂ 2 - clock₂ 1) / 1000
            parse_entities_us := (clock₂ 8 - clock₂ 7) / 1000
            build_request_us := (clock₂ 4 - clock₂ 3) / 1000
            authorization_us := (clock₂ 10 - clock₂ 9) / 1000
            total_us := (clock₂ 11 - clock₂ 0) / 1000 }, ?_⟩
  rw [hresp]

/-- Witness for C7: the run under a second clock yields the same Deny
decision as under the test clock. -/
theorem pipeline_deterministic_up_to_clock_witness :
    ∃ t', (runPipeline unitEnv (fun i => 2000 * i) defaultArgs).1 =
      .ok (⟨.deny⟩, t') :=
  (pipeline_deterministic_up_to_clock unitEnv testClock (fun i => 2000 * i)
    defaultArgs).2.1 ⟨.deny⟩ unitTiming rfl

/-- C8: with the empty entities array and the empty policy text (the
empty policy set, per spec §4.3 scenario C) every well-formed request is
denied: under the spec-modelled decision capability the pipeline's
decision is Deny — default-deny with no policies at all. -/
theorem empty_policy_set_denies
    (pu : String → Except String U) (pj : String → Except String J)
    (cf : J → Except String C) (rn : U → U → U → C → Except String R)
    (pe : String → Except String E)
    (pp : String → Except String (List (PolicyM R E)))
    (clock : Nat → Nat) (p a r : String) (ctx : Option String)
    {pu' au' ru' : U} {j : J} {c : C} {req : R} {es : E}
    (hp : pu p = .ok pu') (ha : pu a = .ok au') (hr : pu r = .ok ru')
    (hj : pj (ctx.getD "\x7b\x7d") = .ok j) (hc : cf j = .ok c)
    (hreq : rn pu' au' ru' c = .ok req) (hes : pe "[]" = .ok es) :
    ∃ t, (authorize_with_timing (specEnv pu pj cf rn pe pp) clock
      p a r "" "[]" ctx).1 = .ok (⟨Decision.deny⟩, t) := by
  refine ⟨{ decision := "Deny"
            parse_policy_us := (clock 6 - clock 5) / 1000
            parse_context_us := (clock 2 - clock 1) / 1000
            parse_entities_us := (clock 8 - clock 7) / 1000
            build_request_us := (clock 4 - clock 3) / 1000
            authorization_us := (clock 10 - clock 9) / 1000
            total_us := (clock 11 - clock 0) / 1000 }, ?_⟩
  have hbc : buildContext (specEnv pu pj cf rn pe pp) (ctx.getD "\x7b\x7d") =
      .ok c := by
    unfold buildContext
    simp only [specEnv, hj, hc]
  unfold authorize_with_timing
  simp only [specEnv] at hbc ⊢
  simp only [hp, ha, hr, hbc, hreq]
  simp [hes, evaluate, Decision.debugRepr]

/-- Witness for C8 at concrete unit carriers. -/
theorem empty_policy_set_denies_witness :
    ∃ t, (authorize_with_timing
      (specEnv (U := Unit) (J := Unit) (C := Unit) (R := Unit) (E := Unit)
        (fun _ => .ok ()) (fun _ => .ok ()) (fun _ => .ok ())
        (fun _ _ _ _ => .ok ()) (fun _ => .ok ()) (fun _ => .ok []))
      testClock "User::\"alice\"" "Action::\"update\"" "Photo::\"flower.jpg\""
      "" "[]" none).1 = .ok (⟨Decision.deny⟩, t) :=
  empty_policy_set_denies (fun _ => .ok ()) (fun _ => .ok ()) (fun _ => .ok ())
    (fun _ _ _ _ => .ok ()) (fun _ => .ok ()) (fun _ => .ok [])
    testClock "User::\"alice\"" "Action::\"update\"" "Photo::\"flower.jpg\""
    none rfl rfl rfl rfl rfl rfl rfl

/-- C9: the three identifiers are parsed before any instrumented stage:
a malformed principal, action or resource aborts the run with only the
identifier attempts in the trace — no context, request, policy, entities
or authorization stage is entered and no stage duration is recorded (the
failure carries no timing record) — and on a successful run with a
monotone clock the identifier-parsing interval (between clock readings 0
and 1) is contained in the total but in none of the five stage
durations, so their sum plus the identifier time still bounds total_us. -/
theorem identifier_parsing_precedes_stages (env : Env U J C R E P)
    (clock : Nat → Nat) (p a r pol ent : String) (ctx : Option String) :
    (∀ e, env.parseEntityUid p = .error e →
      authorize_with_timing env clock p a r pol ent ctx =
        (.error ⟨.principal, e⟩, [.parsePrincipal])) ∧
    (∀ pu e, env.parseEntityUid p = .ok pu → env.parseEntityUid a = .error e →
      authorize_with_timing env clock p a r pol ent ctx =
        (.error ⟨.action, e⟩, [.parsePrincipal, .parseAction])) ∧
    (∀ pu au e, env.parseEntityUid p = .ok pu → env.parseEntityUid a = .ok au →
      env.parseEntityUid r = .error e →
      authorize_with_timing env clock p a r pol ent ctx =
        (.error ⟨.resource, e⟩, [.parsePrincipal, .parseAction, .parseResource])) ∧
    (Monotone clock → ∀ resp t tr,
      authorize_with_timing env clock p a r pol ent ctx = (.ok (resp, t), tr) →
      (clock 1 - clock 0) / 1000 + t.parse_context_us + t.build_request_us +
        t.parse_policy_us + t.parse_entities_us + t.authorization_us ≤
        t.total_us) := by
  refine ⟨?_, ?_, ?_, ?_⟩
  · intro e he
    unfold authorize_with_timing
    simp only [he]
  · intro pu e hp he
    unfold authorize_with_timing
    simp only [hp, he]
  · intro pu au e hp ha he
    unfold authorize_with_timing
    simp only [hp, ha, he]
  · intro hmono resp t tr h
    obtain ⟨-, hc, hb, hpol, hent, hauth, htot, -⟩ := authorize_ok_inversion h
    have h01 : clock 0 ≤ clock 1 := hmono (by norm_num)
    have h12 : clock 1 ≤ clock 2 := hmono (by norm_num)
    have h23 : clock 2 ≤ clock 3 := hmono (by norm_num)
    have h34 : clock 3 ≤ clock 4 := hmono (by norm_num)
    have h45 : clock 4 ≤ clock 5 := hmono (by norm_num)
    have h56 : clock 5 ≤ clock 6 := hmono (by norm_num)
    have h67 : clock 6 ≤ clock 7 := hmono (by norm_num)
    have h78 : clock 7 ≤ clock 8 := hmono (by norm_num)
    have h89 : clock 8 ≤ clock 9 := hmono (by norm_num)
    have h910 : clock 9 ≤ clock 10 := hmono (by norm_num)
    have h1011 : clock 10 ≤ clock 11 := hmono (by norm_num)
    rw [hc, hb, hpol, hent, hauth, htot]
    omega

/-- Witness for C9: a failing principal parse aborts with only the
principal attempt traced, and on the concrete successful run the
identifier interval plus all stage durations is bounded by the total. -/
theorem identifier_parsing_precedes_stages_witness :
    authorize_with_timing failUidEnv testClock "x" "y" "z" "" "[]" none =
      (.error ⟨.principal, "invalid token"⟩, [.parsePrincipal]) ∧
    (testClock 1 - testClock 0) / 1000 + unitTiming.parse_context_us +
      unitTiming.build_request_us + unitTiming.parse_policy_us +
      unitTiming.parse_entities_us + unitTiming.authorization_us ≤
      unitTiming.total_us :=
  ⟨(identifier_parsing_precedes_stages failUidEnv testClock "x" "y" "z"
      "" "[]" none).1 "invalid token" rfl,
   (identifier_parsing_precedes_stages unitEnv testClock "x" "y" "z"
      "" "[]" none).2.2.2 testClock_monotone ⟨.deny⟩ unitTiming
      successTrace rfl⟩

/-- C10: both output modes render the decision identically — the string
stored in the timing report's decision field is exactly the Debug
rendering of the response's decision, which is the line decision-only
mode prints for the same inputs, while timing mode prints the JSON
object embedding that same string. -/
theorem decision_rendering_agrees {env : Env U J C R E P}
    {clock : Nat → Nat} {args : Args} {resp : Response} {t : TimingOutput}
    {tr : List Event}
    (h : runPipeline env clock args = (.ok (resp, t), tr)) :
    t.decision = resp.decision.debugRepr ∧
    (mainRun env clock { args with timing := false }).1 =
      [resp.decision.debugRepr] ∧
    (mainRun env clock { args with timing := true }).1 = [timingJson t] := by
  have h' : authorize_with_timing env clock
      (args.principal.getD principalDefault) (args.action.getD actionDefault)
      (args.resource.getD resourceDefault) (args.policy.getD policyDefault)
      args.entities (contextArg args) = (.ok (resp, t), tr) := h
  refine ⟨(authorize_ok_inversion h').1, ?_, ?_⟩
  · have hf : runPipeline env clock { args with timing := false } =
        (.ok (resp, t), tr) := h
    unfold mainRun
    rw [hf]
    simp
  · have ht : runPipeline env clock { args with timing := true } =
        (.ok (resp, t), tr) := h
    unfold mainRun
    rw [ht]
    simp

/-- Witness for C10 at the unit environment. -/
theorem decision_rendering_agrees_witness :
    unitTiming.decision = "Deny" ∧
    (mainRun unitEnv testClock { defaultArgs with timing := false }).1 =
      ["Deny"] ∧
    (mainRun unitEnv testClock { defaultArgs with timing := true }).1 =
      [timingJson unitTiming] :=
  decision_rendering_agrees
    (show runPipeline unitEnv testClock defaultArgs =
      (.ok (⟨.deny⟩, unitTiming), successTrace) from rfl)

end CedarAuthorize
